import Mathlib

set_option maxRecDepth 8000

/-!
Verification development for `src/google-authenticator.c` of the
google-authenticator-libpam provisioning tool.

The C file is shallowly embedded below: pure helpers (`generateCode`,
`addOption`, scratch-code generation, the confirmation loop, and the
record-building part of `main`) become Lean functions on `Nat`,
`List Nat` and `List Char`.  Machine integers are modelled as `Nat`
with explicit `% 2 ^ 32` where unsigned 32-bit wrap-around matters;
the C `-1` error return of `generateCode` is modelled as `none`.

The repository's `hmac_sha1`, `base32_decode` and `base32_encode`
implementations are not part of this source file (only their headers
are included); following the specification (§1, §6) they are black-box
primitives, so the embedding takes them as function parameters and the
theorems assume exactly the contracts the specification states for
them (a 20-byte digest of bytes, a byte-list decode result, a
32-character encoding of a 20-byte secret).  The unbounded rejection
loop for scratch codes and the unbounded read loop are given explicit
fuel; running out of fuel is a separate outcome that is never
identified with any program behaviour.
-/

/-- Constant SECRET_BITS from the source: bits in the shared secret. -/
def SECRET_BITS : Nat := 160

/-- Constant VERIFICATION_CODE_MODULUS from the source: six digits. -/
def VERIFICATION_CODE_MODULUS : Nat := 1000 * 1000

/-- Constant SCRATCHCODES from the source: default number of initial
scratch codes. -/
def SCRATCHCODES : Nat := 5

/-- Constant MAX_SCRATCHCODES from the source. -/
def MAX_SCRATCHCODES : Nat := 10

/-- Constant SCRATCHCODE_LENGTH from the source: digits per scratch code. -/
def SCRATCHCODE_LENGTH : Nat := 8

/-- Constant BYTES_PER_SCRATCHCODE from the source. -/
def BYTES_PER_SCRATCHCODE : Nat := 4

/-- Constant BITS_PER_BASE32_CHAR from the source. -/
def BITS_PER_BASE32_CHAR : Nat := 5

/-- Constant SHA1_DIGEST_LENGTH from `sha1.h` (20-byte digest). -/
def SHA1_DIGEST_LENGTH : Nat := 20

/-- Embedding of the challenge-construction loop of `generateCode`
(`for (int i = 8; i--; tm >>= 8) challenge[i] = tm;`): the counter is
laid out as 8 bytes, most significant first. -/
def challenge (tm : Nat) : List Nat :=
  (List.range 8).map fun i => (tm >>> (8 * (7 - i))) % 256

/-- Embedding of `generateCode` from the source.  `hmac_sha1` and
`base32_decode` are the external primitives (their C sources are not in
this repository); `none` models the C function's `-1` error return.
The `truncatedHash` fold mirrors the C loop `truncatedHash <<= 8;
truncatedHash |= hash[offset + i];` on a 32-bit unsigned int. -/
def generateCode (hmac_sha1 : List Nat → List Nat → List Nat)
    (base32_decode : String → Option (List Nat))
    (key : String) (tm : Nat) : Option Nat :=
  let secretLen := (key.length + 7) / 8 * BITS_PER_BASE32_CHAR
  if secretLen = 0 ∨ secretLen > 100 then none
  else
    match base32_decode key with
    | none => none
    | some secret =>
      if secret.length < 1 then none
      else
        let hash := hmac_sha1 secret (challenge tm)
        let offset := hash.getD (SHA1_DIGEST_LENGTH - 1) 0 &&& 0xF
        let truncatedHash :=
          (List.range 4).foldl
            (fun t i => ((t <<< 8) % 2 ^ 32) ||| hash.getD (offset + i) 0) 0
        some ((truncatedHash &&& 0x7FFFFFFF) % VERIFICATION_CODE_MODULUS)

/-- Specification-side rendering of step 1 of the algorithm in §4.1 of
the spec: the counter as 8 bytes, most-significant byte first. -/
def counterBytesSpec (c : Nat) : List Nat :=
  [c / 2 ^ 56 % 256, c / 2 ^ 48 % 256, c / 2 ^ 40 % 256, c / 2 ^ 32 % 256,
   c / 2 ^ 24 % 256, c / 2 ^ 16 % 256, c / 2 ^ 8 % 256, c % 256]

/-- Specification-side rendering of steps 3-6 of §4.1: dynamic
truncation of a 20-byte digest.  `offset = digest[19] & 0x0F`, the four
bytes at `digest[offset..offset+3]` read as an unsigned 32-bit
big-endian integer, top bit cleared, reduced mod 1,000,000. -/
def truncateSpec (digest : List Nat) : Nat :=
  let offset := digest.getD 19 0 &&& 0x0F
  ((digest.getD offset 0 * 2 ^ 24 + digest.getD (offset + 1) 0 * 2 ^ 16 +
    digest.getD (offset + 2) 0 * 2 ^ 8 + digest.getD (offset + 3) 0)
   &&& 0x7FFFFFFF) % 1000000

/-- The C `int` result of `generateCode` seen by `main`: `-1` on a
decode failure, the code otherwise. -/
def codeOrNeg (o : Option Nat) : Int :=
  match o with
  | none => -1
  | some c => (c : Int)

/-- Mode-marker string `hotp` from `main`. -/
def hotp : String := "\" HOTP_COUNTER 1\n"

/-- Mode-marker string `totp` from `main`. -/
def totp : String := "\" TOTP_AUTH\n"

/-- Option string `disallow` from `main`. -/
def disallow : String := "\" DISALLOW_REUSE\n"

/-- Option string `step` from `main` (used only for its `sizeof` in the
capacity computation). -/
def step : String := "\" STEP_SIZE 30\n"

/-- Option string `window` from `main`. -/
def window : String := "\" WINDOW_SIZE 17\n"

/-- Option string `ratelimit` from `main`. -/
def ratelimit : String := "\" RATE_LIMIT 3 30\n"

/-- Embedding of `snprintf(s, 80, "\" STEP_SIZE %d\n", step_size)`
from `main`; `Nat.toDigits 10` is the decimal rendering of the
non-negative `%d` argument. -/
def stepLine (n : Nat) : List Char :=
  "\" STEP_SIZE ".data ++ Nat.toDigits 10 n ++ ['\n']

/-- Embedding of `snprintf(s, 80, "\" WINDOW_SIZE %d\n", ...)` from
`main`. -/
def windowLine (n : Nat) : List Char :=
  "\" WINDOW_SIZE ".data ++ Nat.toDigits 10 n ++ ['\n']

/-- Embedding of `snprintf(s, 80, "\" RATE_LIMIT %d %d\n", r, t)` from
`main`. -/
def rateLine (r t : Nat) : List Char :=
  "\" RATE_LIMIT ".data ++ Nat.toDigits 10 r ++ [' '] ++
    Nat.toDigits 10 t ++ ['\n']

/-- Embedding of `snprintf(..., "%08d", n)` for `n < 10^8`: eight
decimal digits, zero-padded, most significant first.  (In the program
the argument is always a scratch code, which is `< 10^8`.) -/
def digits8 (n : Nat) : List Char :=
  (List.range 8).map fun i => Nat.digitChar (n / 10 ^ (7 - i) % 10)

/-- The scratch-code block appended at the end of the record: one
8-digit line per code, in generation order (embedding of the
`snprintf(strrchr(secret, '\000'), ..., "%08d\n", scratch)` appends). -/
def scratchLines (codes : List Nat) : List Char :=
  (codes.map fun c => digits8 c ++ ['\n']).flatten

/-- Embedding of `addOption` (without its assertions): insert `opt`
immediately after the first newline of `buf`, shifting the rest.  When
`buf` has no newline the C function's assertion fails; here the result
is then `buf ++ opt`, and the checked variant below reports the
assertion instead. -/
def addOption : List Char → List Char → List Char
  | [], opt => opt
  | c :: rest, opt =>
    if c = '\n' then c :: (opt ++ rest) else c :: addOption rest opt

/-- Embedding of `addOption` together with its two assertions:
`assert(strlen(buf) + strlen(option) < nbuf)` and
`assert(strchr(buf, '\n'))`; `none` means an assertion fired. -/
def addOptionChecked (nbuf : Nat) (buf opt : List Char) : Option (List Char) :=
  if buf.length + opt.length < nbuf ∧ '\n' ∈ buf then some (addOption buf opt)
  else none

/-- Fold a sequence of `addOption` calls, stopping at the first failed
assertion.  This is the sequence of `addOption`/`maybeAddOption` calls
in `main` lines 880-945. -/
def insertOptions (nbuf : Nat) : List Char → List (List Char) → Option (List Char)
  | buf, [] => some buf
  | buf, o :: rest =>
    match addOptionChecked nbuf buf o with
    | none => none
    | some b => insertOptions nbuf b rest

/-- Size of the random-byte buffer `buf` in `main`:
`SECRET_BITS/8 + MAX_SCRATCHCODES*BYTES_PER_SCRATCHCODE` = 60. -/
def bufSize : Nat := SECRET_BITS / 8 + MAX_SCRATCHCODES * BYTES_PER_SCRATCHCODE

/-- The statically computed capacity of the `secret` array in `main`,
term for term; `sizeof` of a C string literal is its length plus one
for the terminating NUL. -/
def secretCapacity : Nat :=
  (SECRET_BITS + BITS_PER_BASE32_CHAR - 1) / BITS_PER_BASE32_CHAR + 1 +
  (hotp.length + 1) + (disallow.length + 1) + (step.length + 1) +
  (window.length + 1) + (ratelimit.length + 1) + 5 +
  SCRATCHCODE_LENGTH * (MAX_SCRATCHCODES + 1) + 1

/-- Modulus for scratch codes, computed as in the source by the loop
`for (j = 0; j < SCRATCHCODE_LENGTH; j++) modulus *= 10;`. -/
def scratchModulus : Nat :=
  (List.range SCRATCHCODE_LENGTH).foldl (fun m _ => m * 10) 1

/-- One scratch-code candidate from 4 random bytes, as in the source:
`scratch = 256*scratch + buf[...]` accumulated on a 32-bit machine
integer, then `(scratch & 0x7FFFFFFF) % modulus`. -/
def scratchCandidate (bytes : List Nat) : Nat :=
  ((bytes.foldl (fun s b => (256 * s + b) % 2 ^ 32) 0) &&& 0x7FFFFFFF) %
    scratchModulus

/-- Outcome of a fueled random-consuming computation.  `shortRead`
models the `goto urandom_failure; return 1;` path taken when `read`
returns fewer bytes than requested; `fuelOut` is only the artificial
fuel bound. -/
inductive Gen (α : Type) where
  | ok : α → Gen α
  | shortRead : Gen α
  | fuelOut : Gen α
deriving DecidableEq

/-- Embedding of the `new_scratch_code` retry loop of `main` for one
scratch-code slot.  `reads k` is the result of the `k`-th `read(fd,...)`
call; a rejected candidate (leading zero, i.e. `< modulus/10`) causes a
fresh 4-byte read which replaces the slot's bytes entirely; a short
read aborts.  Returns the accepted code and the next unused read
index. -/
def genScratchLoop (reads : Nat → List Nat) :
    List Nat → Nat → Nat → Gen (Nat × Nat)
  | _, _, 0 => .fuelOut
  | bytes, k, fuel + 1 =>
    let scratch := scratchCandidate bytes
    if scratch < scratchModulus / 10 then
      if (reads k).length ≠ BYTES_PER_SCRATCHCODE then .shortRead
      else genScratchLoop reads (reads k) (k + 1) fuel
    else .ok (scratch, k)

/-- Embedding of the scratch-code generation loop of `main`
(`for (i = 0; i < emergency_codes; ++i) ...`): slot `i` starts from the
4 bytes at offset `SECRET_BITS/8 + 4*i` of the initial random buffer
`buf0`, retries drawing from `reads`.  Arguments: remaining count,
slot index, next read index, fuel. -/
def genAllScratch (reads : Nat → List Nat) (buf0 : List Nat) :
    Nat → Nat → Nat → Nat → Gen (List Nat)
  | 0, _, _, _ => .ok []
  | n + 1, i, k, fuel =>
    match genScratchLoop reads
        ((buf0.drop (SECRET_BITS / 8 + BYTES_PER_SCRATCHCODE * i)).take
          BYTES_PER_SCRATCHCODE) k fuel with
    | .shortRead => .shortRead
    | .fuelOut => .fuelOut
    | .ok (c, kNext) =>
      match genAllScratch reads buf0 n (i + 1) kNext fuel with
      | .ok cs => .ok (c :: cs)
      | .shortRead => .shortRead
      | .fuelOut => .fuelOut

/-- The `reuse` command-line state of `main`. -/
inductive ReuseOpt where
  | askReuse
  | disallowReuse
  | allowReuse
deriving DecidableEq

/-- The command-line configuration of `main` after option parsing and
mode resolution (the interactive time-based/counter-based question is
already folded into `useTotp`).  Integer fields keep the source's
sentinel conventions: `stepSize = 0` unset; `windowSize` 0 unset, -1
minimal; `rLimit`/`rTime` 0 unset, -1 disabled by `-u`. -/
structure Cfg where
  useTotp : Bool
  confirm : Bool
  quiet : Bool
  reuse : ReuseOpt
  stepSize : Nat
  windowSize : Int
  rLimit : Int
  rTime : Int
  emergencyCodes : Option Nat
  force : Bool
deriving DecidableEq

/-- Answers the user gives to the `maybe()` yes/no prompts in the
record-building part of `main`. -/
structure Answers where
  answerDisallow : Bool
  answerWindow : Bool
  answerRate : Bool
  answerUpdate : Bool
deriving DecidableEq

/-- Effective number of emergency codes:
`if (emergency_codes < 0) emergency_codes = SCRATCHCODES;`. -/
def emergencyCount (e : Option Nat) : Nat :=
  match e with
  | none => SCRATCHCODES
  | some n => n

/-- The mode-marker line appended right after the secret:
`strcat(secret, use_totp ? totp : hotp)`. -/
def modeLine (useTotp : Bool) : String :=
  if useTotp then totp else hotp

/-- The sequence of option strings inserted by `addOption` in `main`
lines 880-945, in call order: for TOTP, disallow-reuse (flag or
prompt), step-size override, window size (prompt for the fixed
17-line, or the computed line); for HOTP, window size only; then rate
limiting (prompt for the fixed `3 30` line, or the computed line). -/
def optionLines (cfg : Cfg) (ans : Answers) : List (List Char) :=
  (if cfg.useTotp then
    (match cfg.reuse with
     | .askReuse => if ans.answerDisallow then [disallow.data] else []
     | .disallowReuse => [disallow.data]
     | .allowReuse => [])
    ++ (if cfg.stepSize ≠ 0 then [stepLine cfg.stepSize] else [])
    ++ (if cfg.windowSize = 0 then
          (if ans.answerWindow then [window.data] else [])
        else [windowLine (if cfg.windowSize > 0 then cfg.windowSize.toNat else 3)])
   else
    (if cfg.windowSize = 0 then
       (if ans.answerWindow then [window.data] else [])
     else [windowLine (if cfg.windowSize > 0 then cfg.windowSize.toNat else 1)]))
  ++ (if cfg.rLimit = 0 ∧ cfg.rTime = 0 then
        (if ans.answerRate then [ratelimit.data] else [])
      else if cfg.rLimit > 0 ∧ cfg.rTime > 0 then
        [rateLine cfg.rLimit.toNat cfg.rTime.toNat]
      else [])

/-- Result of the interactive confirmation loop in `main` lines
791-806. `eofExit` models `exit(1)` on input EOF/error (the scripted
input list running out). -/
inductive ConfirmResult where
  | confirmed
  | skipped
  | eofExit
deriving DecidableEq

/-- Embedding of the confirmation loop: each entered integer is first
checked for the negative skip sentinel, then compared with the correct
code; on mismatch the loop continues with the next input. -/
def confirmLoop (correct : Int) : List Int → ConfirmResult
  | [] => .eofExit
  | t :: rest =>
    if t < 0 then .skipped
    else if t = correct then .confirmed
    else confirmLoop correct rest

/-- The correct code computed inside the confirmation loop:
`tm = time(NULL)/(step_size ? step_size : 30)` then
`generateCode(secret, tm)`.  The clock is modelled as the fixed value
`now`. -/
def correctCode (hmac_sha1 : List Nat → List Nat → List Nat)
    (base32_decode : String → Option (List Nat))
    (key : String) (now stepSize : Nat) : Int :=
  codeOrNeg (generateCode hmac_sha1 base32_decode key
    (now / (if stepSize ≠ 0 then stepSize else 30)))

/-- What the non-quiet display step of `main` (lines 790-811) does:
either run the interactive confirmation loop (`confirm && use_totp`),
or print the verification code for the fixed counter value 1. -/
inductive DisplayAction where
  | runConfirmLoop
  | showCode (tm : Nat) (code : Int)
deriving DecidableEq

/-- Embedding of the branch at `main` lines 791/807: the confirmation
loop runs only when confirmation is enabled and the mode is TOTP;
otherwise the code for counter value `tm = 1` is displayed. -/
def displayPhase (confirm useTotp : Bool)
    (hmac_sha1 : List Nat → List Nat → List Nat)
    (base32_decode : String → Option (List Nat)) (key : String) :
    DisplayAction :=
  if confirm ∧ useTotp then .runConfirmLoop
  else .showCode 1 (codeOrNeg (generateCode hmac_sha1 base32_decode key 1))

/-- Outcome of the modelled provisioning flow.  `exited s` is an early
`return`/`exit` with status `s`; `assertFailed` is a fired `assert` in
`addOption`; `wrote r` means the flow reached the final write with
record text `r`. -/
inductive FlowResult where
  | exited (status : Nat)
  | assertFailed
  | fuelOut
  | wrote (record : List Char)
deriving DecidableEq

/-- True exactly for the `wrote` outcome. -/
def FlowResult.isWrote : FlowResult → Bool
  | .wrote _ => true
  | _ => false

/-- Embedding of `main` from the initial `/dev/urandom` read (line 773)
to the final write: a short initial read exits with status 1; the
secret string is the base-32 encoding of the first 20 random bytes;
unless quiet, the display phase runs (EOF in the confirmation loop
exits with status 1); scratch codes are generated with retries (a short
retry read exits with status 1); the mode line and scratch lines are
appended; declining the update prompt exits with status 0; the option
lines are inserted by `addOption` (a fired assertion is
`assertFailed`); otherwise the finished record is written.  File-system
operations, QR display and label construction are external and not
modelled. -/
def mainFlow (reads : Nat → List Nat)
    (hmac_sha1 : List Nat → List Nat → List Nat)
    (base32_decode : String → Option (List Nat))
    (base32_encode : List Nat → String)
    (cfg : Cfg) (ans : Answers) (inputs : List Int) (now : Nat)
    (fuel : Nat) : FlowResult :=
  let buf0 := reads 0
  if buf0.length ≠ bufSize then .exited 1
  else
    let key := base32_encode (buf0.take (SECRET_BITS / 8))
    let confirmOk :=
      if cfg.quiet then true
      else
        match displayPhase cfg.confirm cfg.useTotp hmac_sha1 base32_decode key with
        | .runConfirmLoop =>
          match confirmLoop (correctCode hmac_sha1 base32_decode key now cfg.stepSize)
              inputs with
          | .eofExit => false
          | .confirmed => true
          | .skipped => true
        | .showCode _ _ => true
    if ¬ confirmOk then .exited 1
    else
      match genAllScratch reads buf0 (emergencyCount cfg.emergencyCodes) 0 1 fuel with
      | .shortRead => .exited 1
      | .fuelOut => .fuelOut
      | .ok codes =>
        let record0 := key.data ++ '\n' :: (modeLine cfg.useTotp).data ++
          scratchLines codes
        if ¬ cfg.force ∧ ¬ ans.answerUpdate then .exited 0
        else
          match insertOptions secretCapacity record0 (optionLines cfg ans) with
          | none => .assertFailed
          | some r => .wrote r

/-- Concrete HMAC stand-in used by witness instantiations: a fixed
20-byte digest of small bytes, independent of its arguments. -/
def hmacConst : List Nat → List Nat → List Nat :=
  fun _ _ => (List.range 20).map fun i => (13 * i + 7) % 256

/-- Concrete base-32 decoder stand-in used by witness instantiations. -/
def decodeConst : String → Option (List Nat) :=
  fun _ => some (List.replicate 20 1)

/-- Concrete always-failing base-32 decoder (used for the malformed
secret scenarios). -/
def decodeNone : String → Option (List Nat) :=
  fun _ => none

/-- Concrete base-32 encoder stand-in: a 32-character string, matching
the encoded length of a 20-byte secret. -/
def encodeConst : List Nat → String :=
  fun _ => String.mk (List.replicate 32 'A')

/-- Concrete randomness source whose every read succeeds with `0xFF`
bytes (candidate 47483647, never rejected). -/
def readsOk : Nat → List Nat :=
  fun k => if k = 0 then List.replicate bufSize 255
           else List.replicate BYTES_PER_SCRATCHCODE 255

/-- Concrete randomness source whose every read returns nothing. -/
def readsShort : Nat → List Nat :=
  fun _ => []

lemma shiftLeft_lor_eq_add (a : Nat) {b k : Nat} (hb : b < 2 ^ k) :
    (a <<< k) ||| b = a * 2 ^ k + b := by
  apply Nat.eq_of_testBit_eq
  intro i
  rw [Nat.testBit_lor, Nat.testBit_shiftLeft, Nat.mul_comm a (2 ^ k),
    Nat.testBit_mul_pow_two_add a hb i]
  by_cases hi : i < k
  · have : ¬ (i ≥ k) := by omega
    simp [hi, this]
  · have hk : (i ≥ k) := by omega
    have hbi : b < 2 ^ i :=
      lt_of_lt_of_le hb (Nat.pow_le_pow_right (by omega) (by omega))
    simp [hi, hk, Nat.testBit_lt_two_pow hbi]

lemma getD_lt_256 {l : List Nat} (h : ∀ b ∈ l, b < 256) (i : Nat) :
    l.getD i 0 < 256 := by
  by_cases hi : i < l.length
  · rw [List.getD_eq_get l 0 hi]
    exact h _ (List.get_mem l i hi)
  · rw [List.getD_eq_default l 0 (Nat.le_of_not_lt hi)]
    norm_num

/-- C1: for every secret that decodes to 1..100 bytes and every counter,
`generateCode` computes exactly the standardized HOTP/TOTP dynamic
truncation: the counter is encoded as 8 bytes most-significant first,
the HMAC-SHA1 digest is truncated at `offset = digest[19] & 0x0F` by
reading 4 bytes big-endian, clearing the top bit, and reducing mod
1,000,000; the returned code is always in `[0, 10^6)`. -/
theorem c1_generateCode_is_standard_dynamic_truncation
    (hmac_sha1 : List Nat → List Nat → List Nat)
    (base32_decode : String → Option (List Nat))
    (key : String) (secret : List Nat) (tm : Nat)
    (hdec : base32_decode key = some secret)
    (hlen1 : 1 ≤ secret.length) (hlen2 : secret.length ≤ 100)
    (hest1 : 0 < (key.length + 7) / 8 * BITS_PER_BASE32_CHAR)
    (hest2 : (key.length + 7) / 8 * BITS_PER_BASE32_CHAR ≤ 100)
    (hdig : (hmac_sha1 secret (challenge tm)).length = SHA1_DIGEST_LENGTH)
    (hbytes : ∀ b ∈ hmac_sha1 secret (challenge tm), b < 256) :
    generateCode hmac_sha1 base32_decode key tm
      = some (truncateSpec (hmac_sha1 secret (challenge tm)))
    ∧ truncateSpec (hmac_sha1 secret (challenge tm)) < 1000000
    ∧ challenge tm = counterBytesSpec tm := by
  refine ⟨?_, ?_, ?_⟩
  · unfold generateCode
    have hne : ¬ ((key.length + 7) / 8 * BITS_PER_BASE32_CHAR = 0 ∨
        (key.length + 7) / 8 * BITS_PER_BASE32_CHAR > 100) := by omega
    rw [if_neg hne, hdec]
    have hlt : ¬ secret.length < 1 := by omega
    dsimp only
    rw [if_neg hlt]
    set hash := hmac_sha1 secret (challenge tm) with hhash
    set o := hash.getD (SHA1_DIGEST_LENGTH - 1) 0 &&& 0xF with ho
    have hb : ∀ i, hash.getD i 0 < 256 := fun i => getD_lt_256 hbytes i
    have hrange : List.range 4 = [0, 1, 2, 3] := by decide
    rw [hrange]
    simp only [List.foldl]
    have e0 : (((0 : Nat) <<< 8) % 2 ^ 32) ||| hash.getD (o + 0) 0
        = hash.getD (o + 0) 0 := by
      norm_num [Nat.zero_shiftLeft]
    rw [e0]
    have step1 : ∀ t : Nat, t < 2 ^ 24 →
        ((t <<< 8) % 2 ^ 32) ||| hash.getD (o + 1) 0 = t * 256 + hash.getD (o + 1) 0 := by
      intro t ht
      rw [Nat.mod_eq_of_lt (by rw [Nat.shiftLeft_eq]; norm_num; omega)]
      exact shiftLeft_lor_eq_add t (hb (o + 1))
    have step2 : ∀ t : Nat, t < 2 ^ 24 →
        ((t <<< 8) % 2 ^ 32) ||| hash.getD (o + 2) 0 = t * 256 + hash.getD (o + 2) 0 := by
      intro t ht
      rw [Nat.mod_eq_of_lt (by rw [Nat.shiftLeft_eq]; norm_num; omega)]
      exact shiftLeft_lor_eq_add t (hb (o + 2))
    have step3 : ∀ t : Nat, t < 2 ^ 24 →
        ((t <<< 8) % 2 ^ 32) ||| hash.getD (o + 3) 0 = t * 256 + hash.getD (o + 3) 0 := by
      intro t ht
      rw [Nat.mod_eq_of_lt (by rw [Nat.shiftLeft_eq]; norm_num; omega)]
      exact shiftLeft_lor_eq_add t (hb (o + 3))
    rw [step1 _ (by have := hb (o + 0); omega)]
    rw [step2 _ (by have := hb (o + 0); have := hb (o + 1); omega)]
    rw [step3 _ (by have := hb (o + 0); have := hb (o + 1); have := hb (o + 2); omega)]
    have hoeq : (hash.getD 19 0 &&& 0x0F) = o := by
      rw [ho]; rfl
    have hspec : truncateSpec hash
        = ((hash.getD o 0 * 2 ^ 24 + hash.getD (o + 1) 0 * 2 ^ 16 +
            hash.getD (o + 2) 0 * 2 ^ 8 + hash.getD (o + 3) 0)
           &&& 0x7FFFFFFF) % 1000000 := by
      unfold truncateSpec
      dsimp only
      rw [hoeq]
    rw [hspec]
    have harith : ((hash.getD (o + 0) 0 * 256 + hash.getD (o + 1) 0) * 256 +
          hash.getD (o + 2) 0) * 256 + hash.getD (o + 3) 0
        = hash.getD o 0 * 2 ^ 24 + hash.getD (o + 1) 0 * 2 ^ 16 +
          hash.getD (o + 2) 0 * 2 ^ 8 + hash.getD (o + 3) 0 := by
      have ho0 : o + 0 = o := rfl
      rw [ho0]; ring
    rw [harith]
    have hmod : VERIFICATION_CODE_MODULUS = 1000000 := rfl
    rw [hmod]
  · exact Nat.mod_lt _ (by norm_num)
  · simp only [challenge, counterBytesSpec, List.range_succ, List.map_append,
      List.map_cons, List.map_nil, Nat.shiftRight_eq_div_pow]
    norm_num

theorem c1_witness :
    generateCode hmacConst decodeConst "ABCDEFGH" 1
      = some (truncateSpec (hmacConst (List.replicate 20 1) (challenge 1))) :=
  (c1_generateCode_is_standard_dynamic_truncation hmacConst decodeConst
    "ABCDEFGH" (List.replicate 20 1) 1 rfl (by decide) (by decide)
    (by decide) (by decide) (by decide) (by decide)).1

lemma addOption_length (buf opt : List Char) :
    (addOption buf opt).length = buf.length + opt.length := by
  induction buf with
  | nil => simp [addOption]
  | cons c rest ih =>
    by_cases h : c = '\n' <;> simp [addOption, h, ih] <;> omega

lemma addOption_keeps_newline {buf : List Char} (opt : List Char)
    (h : '\n' ∈ buf) : '\n' ∈ addOption buf opt := by
  induction buf with
  | nil => cases h
  | cons c rest ih =>
    by_cases hc : c = '\n'
    · simp [addOption, hc]
    · rcases List.mem_cons.mp h with h1 | h2
      · exact absurd h1.symm hc
      · simp only [addOption, if_neg hc]
        exact List.mem_cons_of_mem c (ih h2)

lemma addOption_insert (s t opt : List Char) (hs : '\n' ∉ s) :
    addOption (s ++ '\n' :: t) opt = s ++ '\n' :: (opt ++ t) := by
  induction s with
  | nil => simp [addOption]
  | cons c rest ih =>
    have hc : ¬ c = '\n' := fun h => hs (h ▸ List.mem_cons_self c rest)
    simp only [List.cons_append, addOption, if_neg hc, List.cons.injEq, true_and]
    exact ih fun h => hs (List.mem_cons_of_mem c h)

/-- C3: `addOption` inserts the option immediately after the first
newline (the end of the secret line) and shifts the rest unchanged;
inserting `a` then `b` into a record made of the secret line followed
by trailing content yields secret line + `b` + `a` + trailing content,
so later insertions land closer to the secret line and the trailing
scratch block stays at the end. -/
theorem c3_addOption_inserts_after_secret_line
    (s t a b : List Char) (hs : '\n' ∉ s) :
    addOption (s ++ '\n' :: t) a = s ++ '\n' :: (a ++ t)
    ∧ addOption (addOption (s ++ '\n' :: t) a) b
      = s ++ '\n' :: (b ++ (a ++ t)) := by
  refine ⟨addOption_insert s t a hs, ?_⟩
  rw [addOption_insert s t a hs, addOption_insert s (a ++ t) b hs]

theorem c3_witness :
    addOption (addOption ("SECRET32".data ++ '\n' :: "11111111\n".data)
        "\" STEP_SIZE 30\n".data) "\" WINDOW_SIZE 17\n".data
      = "SECRET32".data ++ '\n' ::
        ("\" WINDOW_SIZE 17\n".data ++
          ("\" STEP_SIZE 30\n".data ++ "11111111\n".data)) :=
  (c3_addOption_inserts_after_secret_line "SECRET32".data "11111111\n".data
    "\" STEP_SIZE 30\n".data "\" WINDOW_SIZE 17\n".data (by decide)).2

/-- C8 counterexample: the HOTP mode-marker line placed in the record
does not begin with a space followed by a quote; its first two
characters are a quote followed by a space. -/
theorem c8_counterexample_lines_start_with_quote :
    ¬ hotp.data.take 2 = [' ', '"'] := by
  decide

/-- C8 (amended): every option line placed in the configuration record
(mode markers, DISALLOW_REUSE, STEP_SIZE, WINDOW_SIZE, RATE_LIMIT)
begins with a literal quote character followed by a space character,
before the directive keyword. -/
theorem c8_amended_option_lines_start_quote_space :
    hotp.data.take 2 = ['"', ' ']
    ∧ totp.data.take 2 = ['"', ' ']
    ∧ disallow.data.take 2 = ['"', ' ']
    ∧ window.data.take 2 = ['"', ' ']
    ∧ ratelimit.data.take 2 = ['"', ' ']
    ∧ (∀ n, (stepLine n).take 2 = ['"', ' '])
    ∧ (∀ n, (windowLine n).take 2 = ['"', ' '])
    ∧ (∀ r t, (rateLine r t).take 2 = ['"', ' ']) := by
  refine ⟨by decide, by decide, by decide, by decide, by decide,
    fun n => rfl, fun n => rfl, fun r t => rfl⟩

lemma toDigits_len_le_two : ∀ n ∈ Finset.range 100, (Nat.toDigits 10 n).length ≤ 2 := by
  decide

lemma toDigits_len_le_three : ∀ n ∈ Finset.Icc 15 600, (Nat.toDigits 10 n).length ≤ 3 := by
  decide

lemma stepLine_length_le {n : Nat} (h : n ≤ 60) : (stepLine n).length ≤ 15 := by
  have hd := toDigits_len_le_two n (Finset.mem_range.mpr (by omega))
  simp only [stepLine, List.length_append]
  have h12 : ("\" STEP_SIZE ".data).length = 12 := by decide
  simp [h12]
  omega

lemma windowLine_length_le {n : Nat} (h : n ≤ 21) : (windowLine n).length ≤ 17 := by
  have hd := toDigits_len_le_two n (Finset.mem_range.mpr (by omega))
  simp only [windowLine, List.length_append]
  have h14 : ("\" WINDOW_SIZE ".data).length = 14 := by decide
  simp [h14]
  omega

lemma rateLine_length_le {r t : Nat} (hr : r ≤ 10) (ht1 : 15 ≤ t)
    (ht2 : t ≤ 600) : (rateLine r t).length ≤ 20 := by
  have hdr := toDigits_len_le_two r (Finset.mem_range.mpr (by omega))
  have hdt := toDigits_len_le_three t (Finset.mem_Icc.mpr (by omega))
  simp only [rateLine, List.length_append]
  have h13 : ("\" RATE_LIMIT ".data).length = 13 := by decide
  simp [h13]
  omega

lemma digits8_length (n : Nat) : (digits8 n).length = 8 := by
  simp [digits8]

lemma scratchLines_length (codes : List Nat) :
    (scratchLines codes).length = 9 * codes.length := by
  induction codes with
  | nil => simp [scratchLines]
  | cons c cs ih =>
    simp only [scratchLines, List.map_cons, List.flatten_cons, List.length_append,
      List.length_cons, List.length_nil] at ih ⊢
    rw [digits8_length]
    omega

lemma insertOptions_isSome (cap : Nat) :
    ∀ (opts : List (List Char)) (buf : List Char), '\n' ∈ buf →
    buf.length + (opts.map List.length).sum < cap →
    (insertOptions cap buf opts).isSome = true := by
  intro opts
  induction opts with
  | nil =>
    intro buf _ _
    simp [insertOptions]
  | cons o rest ih =>
    intro buf h1 h2
    simp only [List.map_cons, List.sum_cons] at h2
    have hstep : buf.length + o.length < cap := by omega
    simp only [insertOptions, addOptionChecked, if_pos (And.intro hstep h1)]
    exact ih (addOption buf o) (addOption_keeps_newline o h1)
      (by rw [addOption_length]; omega)

lemma optionLines_sum_le (cfg : Cfg) (ans : Answers)
    (hstep : cfg.stepSize = 0 ∨ (1 ≤ cfg.stepSize ∧ cfg.stepSize ≤ 60))
    (hwin : cfg.windowSize = 0 ∨ cfg.windowSize = -1 ∨
      (1 ≤ cfg.windowSize ∧ cfg.windowSize ≤ 21))
    (hrate : (cfg.rLimit = 0 ∧ cfg.rTime = 0) ∨ (cfg.rLimit = -1 ∧ cfg.rTime = -1) ∨
      (1 ≤ cfg.rLimit ∧ cfg.rLimit ≤ 10 ∧ 15 ≤ cfg.rTime ∧ cfg.rTime ≤ 600)) :
    ((optionLines cfg ans).map List.length).sum ≤ 69 := by
  have hwl : ∀ n : Nat, n ≤ 21 → (windowLine n).length ≤ 17 := fun _ h =>
    windowLine_length_le h
  have hwsnat : cfg.windowSize > 0 → cfg.windowSize.toNat ≤ 21 := by
    rcases hwin with h | h | h <;> omega
  have hwinsegT : ((if cfg.windowSize = 0 then
      (if ans.answerWindow then [window.data] else [])
      else [windowLine (if cfg.windowSize > 0 then cfg.windowSize.toNat
        else 3)]).map List.length).sum ≤ 17 := by
    split_ifs with h1 h2 h3
    · simp [window]
    · simp
    · simp only [List.map_cons, List.map_nil, List.sum_cons, List.sum_nil,
        Nat.add_zero]
      exact hwl _ (hwsnat h3)
    · simp only [List.map_cons, List.map_nil, List.sum_cons, List.sum_nil,
        Nat.add_zero]
      exact hwl 3 (by omega)
  have hwinsegH : ((if cfg.windowSize = 0 then
      (if ans.answerWindow then [window.data] else [])
      else [windowLine (if cfg.windowSize > 0 then cfg.windowSize.toNat
        else 1)]).map List.length).sum ≤ 17 := by
    split_ifs with h1 h2 h3
    · simp [window]
    · simp
    · simp only [List.map_cons, List.map_nil, List.sum_cons, List.sum_nil,
        Nat.add_zero]
      exact hwl _ (hwsnat h3)
    · simp only [List.map_cons, List.map_nil, List.sum_cons, List.sum_nil,
        Nat.add_zero]
      exact hwl 1 (by omega)
  have hrateseg : ((if cfg.rLimit = 0 ∧ cfg.rTime = 0 then
      (if ans.answerRate then [ratelimit.data] else [])
      else if cfg.rLimit > 0 ∧ cfg.rTime > 0 then
        [rateLine cfg.rLimit.toNat cfg.rTime.toNat]
      else []).map List.length).sum ≤ 20 := by
    split_ifs with h1 h2 h3
    · simp [ratelimit]
    · simp
    · simp only [List.map_cons, List.map_nil, List.sum_cons, List.sum_nil,
        Nat.add_zero]
      rcases hrate with h | h | h
      · omega
      · omega
      · exact rateLine_length_le (by omega) (by omega) (by omega)
    · simp
  unfold optionLines
  rw [List.map_append, List.sum_append]
  have hmain : ((if cfg.useTotp then
      (match cfg.reuse with
       | .askReuse => if ans.answerDisallow then [disallow.data] else []
       | .disallowReuse => [disallow.data]
       | .allowReuse => [])
      ++ (if cfg.stepSize ≠ 0 then [stepLine cfg.stepSize] else [])
      ++ (if cfg.windowSize = 0 then
            (if ans.answerWindow then [window.data] else [])
          else [windowLine (if cfg.windowSize > 0 then cfg.windowSize.toNat else 3)])
     else
      (if cfg.windowSize = 0 then
         (if ans.answerWindow then [window.data] else [])
       else [windowLine (if cfg.windowSize > 0 then cfg.windowSize.toNat else 1)])).map
      List.length).sum ≤ 49 := by
    by_cases hu : cfg.useTotp = true
    · rw [if_pos hu, List.map_append, List.sum_append, List.map_append,
        List.sum_append]
      have hd : ((match cfg.reuse with
          | ReuseOpt.askReuse => if ans.answerDisallow then [disallow.data] else []
          | ReuseOpt.disallowReuse => [disallow.data]
          | ReuseOpt.allowReuse => []).map List.length).sum ≤ 17 := by
        rcases hr : cfg.reuse
        · split_ifs <;> simp [disallow]
        · simp [disallow]
        · simp
      have hs : ((if cfg.stepSize ≠ 0 then [stepLine cfg.stepSize] else []).map
          List.length).sum ≤ 15 := by
        split_ifs with h1
        · simp only [List.map_cons, List.map_nil, List.sum_cons, List.sum_nil,
            Nat.add_zero]
          rcases hstep with h | h
          · omega
          · exact stepLine_length_le (by omega)
        · simp
      omega
    · rw [if_neg hu]
      omega
  omega

/-- C2: for every legal record construction (32-character base-32
secret line, one mode-marker line, at most one each of the
DISALLOW_REUSE, STEP_SIZE 1..60, WINDOW_SIZE 1..21 and RATE_LIMIT
1..10 / 15..600 option lines as produced by `main`, and at most 10
eight-digit scratch-code lines) the precondition
`strlen(buf) + strlen(option) < nbuf` of every insertion holds for the
statically computed capacity of the `secret` array, so `addOption`'s
assertion never fires and no insertion is truncated. -/
theorem c2_record_construction_fits_capacity
    (cfg : Cfg) (ans : Answers) (secretStr : List Char) (codes : List Nat)
    (hsecret : secretStr.length = SECRET_BITS / BITS_PER_BASE32_CHAR)
    (hcodes : codes.length ≤ MAX_SCRATCHCODES)
    (hstep : cfg.stepSize = 0 ∨ (1 ≤ cfg.stepSize ∧ cfg.stepSize ≤ 60))
    (hwin : cfg.windowSize = 0 ∨ cfg.windowSize = -1 ∨
      (1 ≤ cfg.windowSize ∧ cfg.windowSize ≤ 21))
    (hrate : (cfg.rLimit = 0 ∧ cfg.rTime = 0) ∨ (cfg.rLimit = -1 ∧ cfg.rTime = -1) ∨
      (1 ≤ cfg.rLimit ∧ cfg.rLimit ≤ 10 ∧ 15 ≤ cfg.rTime ∧ cfg.rTime ≤ 600)) :
    (insertOptions secretCapacity
      (secretStr ++ '\n' :: (modeLine cfg.useTotp).data ++ scratchLines codes)
      (optionLines cfg ans)).isSome = true := by
  apply insertOptions_isSome
  · simp
  · have h32 : secretStr.length = 32 := by rw [hsecret]; decide
    have hmode : (modeLine cfg.useTotp).data.length ≤ 17 := by
      rcases h : cfg.useTotp <;> simp [modeLine] <;> decide
    have hsl := scratchLines_length codes
    have hopts := optionLines_sum_le cfg ans hstep hwin hrate
    have hcap : secretCapacity = 216 := by decide
    simp only [List.length_append, List.length_cons]
    have hm : MAX_SCRATCHCODES = 10 := rfl
    omega

theorem c2_witness :
    (insertOptions secretCapacity
      (List.replicate 32 'A' ++ '\n' :: (modeLine true).data ++
        scratchLines (List.replicate 10 10000000))
      (optionLines
        ⟨true, true, false, ReuseOpt.disallowReuse, 60, 21, 10, 600, some 10, true⟩
        ⟨true, true, true, true⟩)).isSome = true :=
  c2_record_construction_fits_capacity
    ⟨true, true, false, ReuseOpt.disallowReuse, 60, 21, 10, 600, some 10, true⟩
    ⟨true, true, true, true⟩ (List.replicate 32 'A')
    (List.replicate 10 10000000) (by decide) (by decide)
    (by norm_num) (by norm_num) (by norm_num)

lemma scratchModulus_eq : scratchModulus = 100000000 := by
  decide

lemma genScratchLoop_ok_range :
    ∀ (fuel : Nat) (reads : Nat → List Nat) (bytes : List Nat) (k c k2 : Nat),
    genScratchLoop reads bytes k fuel = .ok (c, k2) →
    scratchModulus / 10 ≤ c ∧ c < scratchModulus := by
  intro fuel
  induction fuel with
  | zero =>
    intro reads bytes k c k2 h
    simp [genScratchLoop] at h
  | succ n ih =>
    intro reads bytes k c k2 h
    simp only [genScratchLoop] at h
    split_ifs at h with h1 h2
    · exact ih _ _ _ _ _ h
    · cases h
      refine ⟨by omega, ?_⟩
      unfold scratchCandidate
      exact Nat.mod_lt _ (by rw [scratchModulus_eq]; norm_num)

lemma genAllScratch_ok_mem :
    ∀ (n : Nat) (reads : Nat → List Nat) (buf0 : List Nat) (i k fuel : Nat)
      (codes : List Nat),
    genAllScratch reads buf0 n i k fuel = .ok codes →
    ∀ c ∈ codes, scratchModulus / 10 ≤ c ∧ c < scratchModulus := by
  intro n
  induction n with
  | zero =>
    intro reads buf0 i k fuel codes h c hc
    simp only [genAllScratch] at h
    cases h
    cases hc
  | succ m ih =>
    intro reads buf0 i k fuel codes h c hc
    simp only [genAllScratch] at h
    split at h
    · exact absurd h (by simp)
    · exact absurd h (by simp)
    · next c1 kNext hgl =>
      split at h
      · next cs hrec =>
        cases h
        rcases List.mem_cons.mp hc with h1 | h2
        · exact h1 ▸ genScratchLoop_ok_range fuel reads _ k c1 kNext hgl
        · exact ih reads buf0 (i + 1) kNext fuel cs hrec c h2
      · exact absurd h (by simp)
      · exact absurd h (by simp)

lemma genAllScratch_ok_length :
    ∀ (n : Nat) (reads : Nat → List Nat) (buf0 : List Nat) (i k fuel : Nat)
      (codes : List Nat),
    genAllScratch reads buf0 n i k fuel = .ok codes → codes.length = n := by
  intro n
  induction n with
  | zero =>
    intro reads buf0 i k fuel codes h
    simp only [genAllScratch] at h
    cases h
    rfl
  | succ m ih =>
    intro reads buf0 i k fuel codes h
    simp only [genAllScratch] at h
    split at h
    · exact absurd h (by simp)
    · exact absurd h (by simp)
    · next c1 kNext hgl =>
      split at h
      · next cs hrec =>
        cases h
        simp [ih reads buf0 (i + 1) kNext fuel cs hrec]
      · exact absurd h (by simp)
      · exact absurd h (by simp)

/-- C4: every scratch code produced by the generation loop is an
integer in `[10^7, 10^8)`; a candidate is formed from 4 random bytes
read big-endian with the top bit cleared and reduced mod `10^8`; a
candidate below `10^7` is discarded and the slot retried from 4
entirely fresh random bytes (the rejected value is never reused). -/
theorem c4_scratch_codes_have_eight_digits :
    (∀ (reads : Nat → List Nat) (buf0 : List Nat) (n i k fuel : Nat)
       (codes : List Nat),
       genAllScratch reads buf0 n i k fuel = .ok codes →
       ∀ c ∈ codes, 10000000 ≤ c ∧ c < 100000000)
    ∧ (∀ (reads : Nat → List Nat) (bytes : List Nat) (k fuel : Nat),
        genScratchLoop reads bytes k (fuel + 1)
          = if scratchCandidate bytes < scratchModulus / 10 then
              (if (reads k).length ≠ BYTES_PER_SCRATCHCODE then .shortRead
               else genScratchLoop reads (reads k) (k + 1) fuel)
            else .ok (scratchCandidate bytes, k))
    ∧ (∀ b0 b1 b2 b3 : Nat, b0 < 256 → b1 < 256 → b2 < 256 → b3 < 256 →
        scratchCandidate [b0, b1, b2, b3]
          = ((b0 * 2 ^ 24 + b1 * 2 ^ 16 + b2 * 2 ^ 8 + b3) &&& 0x7FFFFFFF)
            % 100000000) := by
  refine ⟨?_, ?_, ?_⟩
  · intro reads buf0 n i k fuel codes h c hc
    have := genAllScratch_ok_mem n reads buf0 i k fuel codes h c hc
    rw [scratchModulus_eq] at this
    omega
  · intro reads bytes k fuel
    rfl
  · intro b0 b1 b2 b3 h0 h1 h2 h3
    unfold scratchCandidate
    simp only [List.foldl]
    have e0 : (256 * 0 + b0) % 2 ^ 32 = b0 := by omega
    rw [e0]
    have e1 : (256 * b0 + b1) % 2 ^ 32 = 256 * b0 + b1 := by omega
    rw [e1]
    have e2 : (256 * (256 * b0 + b1) + b2) % 2 ^ 32 = 256 * (256 * b0 + b1) + b2 := by
      omega
    rw [e2]
    have e3 : (256 * (256 * (256 * b0 + b1) + b2) + b3) % 2 ^ 32
        = 256 * (256 * (256 * b0 + b1) + b2) + b3 := by
      omega
    rw [e3]
    rw [scratchModulus_eq]
    have harith : 256 * (256 * (256 * b0 + b1) + b2) + b3
        = b0 * 2 ^ 24 + b1 * 2 ^ 16 + b2 * 2 ^ 8 + b3 := by ring
    rw [harith]

theorem c4_witness :
    10000000 ≤ 47483647 ∧ 47483647 < 100000000 :=
  (c4_scratch_codes_have_eight_digits.1 readsOk (List.replicate 60 255) 1 0 1 1
    [47483647] (by decide)) 47483647 (by decide)

lemma digitChar_ne_newline : ∀ d ∈ Finset.range 10, Nat.digitChar d ≠ '\n' := by
  decide

lemma digits8_no_newline (c : Nat) : '\n' ∉ digits8 c := by
  intro h
  simp only [digits8, List.mem_map, List.mem_range] at h
  obtain ⟨i, _, he⟩ := h
  exact digitChar_ne_newline (c / 10 ^ (7 - i) % 10)
    (Finset.mem_range.mpr (Nat.mod_lt _ (by norm_num))) he

lemma scratchLines_newline_count (codes : List Nat) :
    (scratchLines codes).count '\n' = codes.length := by
  induction codes with
  | nil => simp [scratchLines]
  | cons c cs ih =>
    simp only [scratchLines, List.map_cons, List.flatten_cons] at ih ⊢
    rw [List.count_append, List.count_append]
    have h0 : (digits8 c).count '\n' = 0 :=
      List.count_eq_zero.mpr (digits8_no_newline c)
    rw [h0, ih]
    simp [Nat.add_comm]

/-- C9: when no emergency-codes count is supplied on the command line,
the effective count is the default `SCRATCHCODES = 5`, the generation
loop produces exactly 5 codes, and exactly 5 scratch-code lines are
appended to the record. -/
theorem c9_default_is_five_scratch_codes :
    emergencyCount none = 5
    ∧ SCRATCHCODES = 5
    ∧ (∀ (reads : Nat → List Nat) (buf0 : List Nat) (i k fuel : Nat)
         (codes : List Nat),
        genAllScratch reads buf0 (emergencyCount none) i k fuel = .ok codes →
        codes.length = 5 ∧ (scratchLines codes).count '\n' = 5) := by
  refine ⟨rfl, rfl, ?_⟩
  intro reads buf0 i k fuel codes h
  have hl := genAllScratch_ok_length (emergencyCount none) reads buf0 i k fuel codes h
  have h5 : emergencyCount none = 5 := rfl
  rw [h5] at hl
  exact ⟨hl, by rw [scratchLines_newline_count, hl]⟩

theorem c9_witness :
    [47483647, 47483647, 47483647, 47483647, 47483647].length = 5
    ∧ (scratchLines [47483647, 47483647, 47483647, 47483647, 47483647]).count '\n' = 5 :=
  c9_default_is_five_scratch_codes.2.2 readsOk (List.replicate 60 255) 0 1 1
    [47483647, 47483647, 47483647, 47483647, 47483647] (by decide)

/-- C6: a read from the randomness source returning fewer bytes than
requested aborts the whole provisioning flow with exit status 1: this
holds for the initial 60-byte draw, and for every 4-byte re-draw during
scratch-code retry the loop stops immediately with the short-read
failure (never retrying the read), which the flow turns into exit
status 1; no record is written in either case. -/
theorem c6_short_read_aborts_flow :
    (∀ (reads : Nat → List Nat) (hmac_sha1 : List Nat → List Nat → List Nat)
       (base32_decode : String → Option (List Nat))
       (base32_encode : List Nat → String) (cfg : Cfg) (ans : Answers)
       (inputs : List Int) (now fuel : Nat),
       (reads 0).length ≠ bufSize →
       mainFlow reads hmac_sha1 base32_decode base32_encode cfg ans inputs now fuel
         = .exited 1)
    ∧ (∀ (reads : Nat → List Nat) (bytes : List Nat) (k fuel : Nat),
        scratchCandidate bytes < scratchModulus / 10 →
        (reads k).length ≠ BYTES_PER_SCRATCHCODE →
        genScratchLoop reads bytes k (fuel + 1) = .shortRead)
    ∧ (∀ (reads : Nat → List Nat) (hmac_sha1 : List Nat → List Nat → List Nat)
        (base32_decode : String → Option (List Nat))
        (base32_encode : List Nat → String) (cfg : Cfg) (ans : Answers)
        (inputs : List Int) (now fuel : Nat),
        genAllScratch reads (reads 0) (emergencyCount cfg.emergencyCodes) 0 1 fuel
          = .shortRead →
        mainFlow reads hmac_sha1 base32_decode base32_encode cfg ans inputs now fuel
          = .exited 1) := by
  refine ⟨?_, ?_, ?_⟩
  · intro reads hmac_sha1 base32_decode base32_encode cfg ans inputs now fuel h
    simp [mainFlow, h]
  · intro reads bytes k fuel h1 h2
    simp only [genScratchLoop]
    rw [if_pos h1, if_pos h2]
  · intro reads hmac_sha1 base32_decode base32_encode cfg ans inputs now fuel h
    by_cases hb : (reads 0).length ≠ bufSize
    · simp [mainFlow, hb]
    · simp only [mainFlow, h]
      split_ifs <;> rfl

theorem c6_witness :
    mainFlow readsShort hmacConst decodeConst encodeConst
      ⟨true, true, false, ReuseOpt.askReuse, 0, 0, 0, 0, none, true⟩
      ⟨false, false, false, true⟩ [] 0 1 = .exited 1 :=
  c6_short_read_aborts_flow.1 readsShort hmacConst decodeConst encodeConst
    ⟨true, true, false, ReuseOpt.askReuse, 0, 0, 0, 0, none, true⟩
    ⟨false, false, false, true⟩ [] 0 1 (by decide)

/-- C5 counterexample: with a base-32 decoder that fails on the
generated secret (so code derivation hits the malformed-secret
rejection and returns the error sentinel), the provisioning flow does
not abort: the confirmation step treats the sentinel as an ordinary
code, the skip sentinel ends it, and the flow still reaches the final
write of the record — contradicting the claim that a malformed secret
given to code derivation aborts the process with a non-zero exit
status and no persisted record. -/
theorem c5_counterexample_flow_continues_after_decode_error :
    generateCode hmacConst decodeNone (String.mk (List.replicate 32 'A')) 1 = none
    ∧ (mainFlow readsOk hmacConst decodeNone encodeConst
        ⟨true, true, false, ReuseOpt.allowReuse, 0, -1, -1, -1, some 0, true⟩
        ⟨false, false, false, true⟩ [-1] 0 1).isWrote = true := by
  constructor
  · rfl
  · decide

/-- C5 (amended): if the estimated decoded capacity of the textual
secret lies outside (0, 100] bytes, or base-32 decoding fails or yields
fewer than 1 byte, `generateCode` rejects the secret and returns the
decode-error sentinel (`-1` in C, `none` here) instead of a code; the
process, however, does not abort: the caller uses the sentinel like any
other code value and the provisioning flow continues. -/
theorem c5_amended_malformed_secret_rejected
    (hmac_sha1 : List Nat → List Nat → List Nat)
    (base32_decode : String → Option (List Nat)) (key : String) (tm : Nat)
    (h : (key.length + 7) / 8 * BITS_PER_BASE32_CHAR = 0
       ∨ (key.length + 7) / 8 * BITS_PER_BASE32_CHAR > 100
       ∨ base32_decode key = none
       ∨ (∃ s, base32_decode key = some s ∧ s.length < 1)) :
    generateCode hmac_sha1 base32_decode key tm = none := by
  unfold generateCode
  by_cases he : (key.length + 7) / 8 * BITS_PER_BASE32_CHAR = 0
      ∨ (key.length + 7) / 8 * BITS_PER_BASE32_CHAR > 100
  · rw [if_pos he]
  · rw [if_neg he]
    rcases h with h | h | h | ⟨s, hs, hl⟩
    · exact absurd (Or.inl h) he
    · exact absurd (Or.inr h) he
    · rw [h]
    · rw [hs]
      dsimp only
      rw [if_pos hl]

theorem c5_amended_witness :
    generateCode hmacConst decodeNone "ABCDEFGH" 7 = none :=
  c5_amended_malformed_secret_rejected hmacConst decodeNone "ABCDEFGH" 7
    (Or.inr (Or.inr (Or.inl rfl)))

/-- C7: in the confirmation loop (correct code derived for
`floor(now / stepSize)`, with the step size defaulting to 30 when no
override is set), a negative entry terminates the loop as skipped
before any comparison, an entry equal to the derived code terminates it
as confirmed, and any other entry returns the loop to awaiting input on
the remaining entries, with no bound on the number of retries. -/
theorem c7_confirmation_loop_transitions
    (hmac_sha1 : List Nat → List Nat → List Nat)
    (base32_decode : String → Option (List Nat)) (key : String)
    (now stepSize : Nat) (inputs : List Int) (t : Int) :
    (t < 0 →
      confirmLoop (correctCode hmac_sha1 base32_decode key now stepSize)
        (t :: inputs) = .skipped)
    ∧ (0 ≤ t → t = correctCode hmac_sha1 base32_decode key now stepSize →
        confirmLoop (correctCode hmac_sha1 base32_decode key now stepSize)
          (t :: inputs) = .confirmed)
    ∧ (0 ≤ t → t ≠ correctCode hmac_sha1 base32_decode key now stepSize →
        confirmLoop (correctCode hmac_sha1 base32_decode key now stepSize)
          (t :: inputs)
        = confirmLoop (correctCode hmac_sha1 base32_decode key now stepSize)
            inputs)
    ∧ correctCode hmac_sha1 base32_decode key now 0
        = codeOrNeg (generateCode hmac_sha1 base32_decode key (now / 30)) := by
  refine ⟨?_, ?_, ?_, rfl⟩
  · intro ht
    simp [confirmLoop, ht]
  · intro ht1 ht2
    subst ht2
    have hn : ¬ correctCode hmac_sha1 base32_decode key now stepSize < 0 := by
      omega
    simp [confirmLoop, hn]
  · intro ht1 ht2
    have hn : ¬ t < 0 := by omega
    simp [confirmLoop, hn, ht2]

theorem c7_witness :
    confirmLoop (correctCode hmacConst decodeConst "ABCDEFGH" 59 0) [-1]
      = .skipped :=
  (c7_confirmation_loop_transitions hmacConst decodeConst "ABCDEFGH" 59 0 []
    (-1)).1 (by norm_num)

/-- C10: in counter-based (HOTP) mode the serialized mode line is the
fixed text `" HOTP_COUNTER 1\n` (initial counter value always 1), and
whenever the mode is HOTP or confirmation is disabled the display phase
does not run the confirmation loop but shows the verification code
derived for counter value 1. -/
theorem c10_hotp_fixed_counter_line_and_no_confirm_loop :
    modeLine false = hotp
    ∧ hotp = "\" HOTP_COUNTER 1\n"
    ∧ (∀ (c u : Bool) (hmac_sha1 : List Nat → List Nat → List Nat)
         (base32_decode : String → Option (List Nat)) (key : String),
        c = false ∨ u = false →
        displayPhase c u hmac_sha1 base32_decode key
          = .showCode 1 (codeOrNeg (generateCode hmac_sha1 base32_decode key 1))) := by
  refine ⟨rfl, rfl, ?_⟩
  intro c u hmac_sha1 base32_decode key h
  rcases h with h | h <;> simp [displayPhase, h]

theorem c10_witness :
    displayPhase true false hmacConst decodeConst "ABCDEFGH"
      = .showCode 1 (codeOrNeg (generateCode hmacConst decodeConst "ABCDEFGH" 1)) :=
  c10_hotp_fixed_counter_line_and_no_confirm_loop.2.2 true false hmacConst
    decodeConst "ABCDEFGH" (Or.inr rfl)
